import Mathlib

/-!
Verification of the apero-soleil terrace-sunlight system.

Part 1 models the offline classification engine (solar raytracer, terrace
height resolver, weather filter, aggregator).  This engine is described only
in prose in the repository (methodology modal and planning documents); the
definitions below are therefore modelled from the specification text, as
their doc comments state.

Part 2 models the serving layer, which is real TypeScript code of the
repository: the bounding-box filter and time snapping of
`src/app/api/terraces/route.ts`, the GeoJSON helpers of
`src/lib/data/csvParser.ts`, and the nearby-search route of
`src/app/api/terraces/nearby/route.ts`.

Numbers of the TypeScript code are modelled as rationals (`ℚ`); the embedding
is exact for every quantity the claims depend on.
-/

namespace AperoSoleil

/-! ### Part 1: the classification engine (modelled from the spec) -/

/-- Result of one run of the shadow raytracer for a (terrace, time-slot)
pair: either geometrically shaded, recording the first obstruction's
distance, DSM height, and the ray's height there, or geometrically sunlit. -/
inductive RayResult where
  | shaded (distance obstructionHeight rayHeightAtObstacle : ℚ)
  | sunlit
deriving DecidableEq, Repr

/-- Modelled from the spec: the ray's theoretical height above the terrace at
step index `i` (step distances are `(i+1) * step`):
`terrace.resolved_height + d * tan(altitude)`, with `tanAlt` the tangent of
the sun's altitude. -/
def rayHeight (h0 tanAlt step : ℚ) (i : ℕ) : ℚ :=
  h0 + ((i : ℚ) + 1) * step * tanAlt

/-- Modelled from the spec: whether the DSM sample at step index `i`
obstructs the ray.  `dsm i = none` means the step fell outside raster
coverage, which the spec treats as no obstruction at that step; a DSM height
exactly equal to the ray height counts as obstruction (ties are shade). -/
def obstructsAt (dsm : ℕ → Option ℚ) (h0 tanAlt step : ℚ) (i : ℕ) : Bool :=
  match dsm i with
  | some hh => decide (rayHeight h0 tanAlt step i ≤ hh)
  | none => false

/-- First index `i` with `start ≤ i < start + fuel` where `p i` holds. -/
def firstHitFrom (p : ℕ → Bool) : ℕ → ℕ → Option ℕ
  | _, 0 => none
  | start, fuel + 1 =>
    if p start then some start else firstHitFrom p (start + 1) fuel

/-- Modelled from the spec: the shadow raytracer.  March `n` fixed-distance
steps outward from the terrace in the sun's azimuth direction; the first
step whose DSM sample reaches the ray height wins and yields `shaded` with
its obstruction data; otherwise the terrace is geometrically `sunlit`. -/
def raytrace (dsm : ℕ → Option ℚ) (h0 tanAlt step : ℚ) (n : ℕ) : RayResult :=
  match firstHitFrom (obstructsAt dsm h0 tanAlt step) 0 n with
  | some i =>
      .shaded (((i : ℚ) + 1) * step) ((dsm i).getD 0) (rayHeight h0 tanAlt step i)
  | none => .sunlit

/-- Modelled from the spec: the weather filter, written as the override
procedure of §4.4: if cloud cover exceeds the threshold, override a
geometrically-sunlit classification to shaded; a geometrically-shaded
classification is passed through unchanged. -/
def weatherFilter (geometric : Bool) (cloud threshold : ℚ) : Bool :=
  if threshold < cloud then false else geometric

/-- Turn a raytracer result into the geometric sunlit boolean. -/
def geometricSunlit : RayResult → Bool
  | .shaded _ _ _ => false
  | .sunlit => true

/-- Modelled from the spec: final classification of one (terrace, time-slot)
pair.  When the sun's altitude is ≤ 0 the slot is shaded outright and the
raytracer (passed lazily as a thunk) is not consulted; otherwise the
geometric result is filtered by cloud cover. -/
def classifySlot (rt : Unit → RayResult) (altitude cloud threshold : ℚ) : Bool :=
  if altitude ≤ 0 then false
  else weatherFilter (geometricSunlit (rt ())) cloud threshold

/-- Grid offsets `(dx, dy)` with `dx² + dy² ≤ r²`: the raster cells within
the buffer radius `r` (in cells) of a centre cell. -/
def bufferOffsets (r : ℕ) : List (ℤ × ℤ) :=
  (List.range (2 * r + 1)).flatMap (fun i =>
    (List.range (2 * r + 1)).filterMap (fun j =>
      let dx : ℤ := (i : ℤ) - (r : ℤ)
      let dy : ℤ := (j : ℤ) - (r : ℤ)
      if dx * dx + dy * dy ≤ (r : ℤ) * (r : ℤ) then some (dx, dy) else none))

/-- Modelled from the spec: all DSM samples within the buffer radius around
the terrace's cell `(cx, cy)`.  Cells outside raster coverage (`none`)
contribute no sample. -/
def bufferSamples (dsm : ℤ × ℤ → Option ℚ) (cx cy : ℤ) (r : ℕ) : List ℚ :=
  (bufferOffsets r).filterMap (fun o => dsm (cx + o.1, cy + o.2))

/-- Modelled from the spec: the terrace height resolver (§4.2).  Returns the
MINIMUM DSM sample within the buffer, or `none` when the buffer has no
raster coverage (the terrace is then excluded and reported). -/
def resolveHeight (dsm : ℤ × ℤ → Option ℚ) (cx cy : ℤ) (r : ℕ) : Option ℚ :=
  match bufferSamples dsm cx cy r with
  | [] => none
  | h :: t => some (t.foldl min h)

/-- Input to the aggregator: a terrace id together with the outcome of
height resolution (`none` = height resolution failed). -/
structure TerraceIn where
  id : String
  height : Option ℚ
deriving DecidableEq, Repr

/-- Modelled from the spec: the result aggregator (§4.5).  Emits one output
record per terrace that successfully resolved a height, in registry order,
and counts the terraces that failed resolution into a run-level warning. -/
def aggregate (ts : List TerraceIn) : List (String × ℚ) × ℕ :=
  (ts.filterMap (fun t => t.height.map (fun h => (t.id, h))),
   (ts.filter (fun t => t.height.isNone)).length)

/-! ### Part 2: the serving layer (embedded from the TypeScript source) -/

/-- A GeoJSON terrace feature (`TerraceFeature` of `csvParser.ts`): `Point`
geometry `[lon, lat]` and a properties object holding the terrace `id` plus
dynamic boolean time-slot properties. -/
structure TerraceFeature where
  lon : ℚ
  lat : ℚ
  id : String
  props : List (String × Bool)
deriving DecidableEq, Repr

/-- The keys of a feature's `properties` object, as `Object.keys` sees them:
the `id` key followed by the dynamic property keys. -/
def propertyKeys (f : TerraceFeature) : List String :=
  "id" :: f.props.map (fun p => p.1)

/-- `listContains pat s` models JavaScript `s.includes(pat)` on the
underlying character lists. -/
def listContains (pat : List Char) : List Char → Bool
  | [] => pat.isEmpty
  | c :: t => pat.isPrefixOf (c :: t) || listContains pat t

/-- The address computed by `getFilteredTerraces`: demo ids are rewritten to
`Demo Terrace #<n>`, all other ids are used verbatim. -/
def addressOf (id : String) : String :=
  if listContains "demo".data id.data then
    "Demo Terrace #" ++ ((id.splitOn "-").getD 1 "undefined")
  else id

/-- API response object built by `getFilteredTerraces` in the bounding-box
route: the feature's properties spread into the record, plus `id`, `lat`,
`lon` and `address`. -/
structure TerraceAPIResponse where
  id : String
  lat : ℚ
  lon : ℚ
  address : String
  props : List (String × Bool)
deriving DecidableEq, Repr

/-- Map a feature to its API response (step 2 of `getFilteredTerraces`). -/
def toResponse (f : TerraceFeature) : TerraceAPIResponse :=
  { id := f.id, lat := f.lat, lon := f.lon, address := addressOf f.id,
    props := f.props }

/-- The parsed bounding box of the viewport query. -/
structure Bounds where
  swLng : ℚ
  swLat : ℚ
  neLng : ℚ
  neLat : ℚ
deriving DecidableEq, Repr

/-- The bounding-box test of `getFilteredTerraces`:
`lon >= swLng && lon <= neLng && lat >= swLat && lat <= neLat`. -/
def inBounds (b : Bounds) (f : TerraceFeature) : Bool :=
  decide (b.swLng ≤ f.lon) && decide (f.lon ≤ b.neLng) &&
    decide (b.swLat ≤ f.lat) && decide (f.lat ≤ b.neLat)

/-- `getFilteredTerraces` of the bounding-box route: filter by the bounding
box when one is provided, then map every remaining feature to its API
response. -/
def getFilteredTerraces (feats : List TerraceFeature) (bounds : Option Bounds) :
    List TerraceAPIResponse :=
  (match bounds with
   | some b => feats.filter (inBounds b)
   | none => feats).map toResponse

/-- One query parameter as the route sees it: absent (or empty, which is
falsy in JavaScript), present but not parseable as a number (`parseFloat`
gives `NaN`), or a parsed numeric value. -/
inductive QueryParam where
  | missing
  | notNumeric
  | value (q : ℚ)
deriving DecidableEq, Repr

/-- HTTP error outcomes of the route handlers. -/
inductive ApiError where
  | badRequest
  | serverError
deriving DecidableEq, Repr

/-- Whether a query parameter is a truthy string. -/
def QueryParam.present : QueryParam → Bool
  | .missing => false
  | _ => true

/-- The bounds-parsing logic of the `GET` handler: when all four parameters
are present they must all parse as numbers (else 400); when any is absent no
bounding box is applied. -/
def parseBounds (pSwLng pSwLat pNeLng pNeLat : QueryParam) :
    Except ApiError (Option Bounds) :=
  if pSwLng.present && pSwLat.present && pNeLng.present && pNeLat.present then
    match pSwLng, pSwLat, pNeLng, pNeLat with
    | .value a, .value b, .value c, .value d =>
        .ok (some { swLng := a, swLat := b, neLng := c, neLat := d })
    | _, _, _, _ => .error .badRequest
  else
    .ok none

/-- The `GET` handler of the bounding-box terraces route: parse the bounds
parameters, then filter and map the loaded features. -/
def terracesGET (feats : List TerraceFeature)
    (pSwLng pSwLat pNeLng pNeLat : QueryParam) :
    Except ApiError (List TerraceAPIResponse) :=
  match parseBounds pSwLng pSwLat pNeLng pNeLat with
  | .error e => .error e
  | .ok bounds => .ok (getFilteredTerraces feats bounds)

/-- One sunshine record as `csvParser.ts`'s `TerraceRecord` exposes it to
the date/time routes. -/
structure TerraceRecord where
  terrace_id : String
  terrace_lat : ℚ
  terrace_lon : ℚ
  date : String
  time_slot : String
  is_sunlit : Bool
deriving DecidableEq, Repr

/-- The `Terrace` interface of `src/app/api/terraces/route.ts`. -/
structure Terrace where
  id : String
  lat : ℚ
  lon : ℚ
  address : String
  isSunlit : Bool
deriving DecidableEq, Repr

/-- Map a record to the route's `Terrace` shape (`terrace_id` doubles as the
address fallback). -/
def toTerrace (r : TerraceRecord) : Terrace :=
  { id := r.terrace_id, lat := r.terrace_lat, lon := r.terrace_lon,
    address := r.terrace_id, isSunlit := r.is_sunlit }

/-- `Map.set` on an association list kept in key-insertion order: an
existing key keeps its position and gets the new value, a new key is
appended.  This is the observable behaviour of the JavaScript `Map` used in
`filterTerraces`. -/
def mapSet (m : List (String × Terrace)) (k : String) (v : Terrace) :
    List (String × Terrace) :=
  if m.any (fun p => p.1 == k) then
    m.map (fun p => if p.1 == k then (k, v) else p)
  else
    m ++ [(k, v)]

/-- The deduplication step of `filterTerraces` in
`src/app/api/terraces/route.ts`: insert every record into a `Map` keyed by
`terrace_id`, then return the map's values. -/
def filterTerraces (records : List TerraceRecord) : List Terrace :=
  (records.foldl (fun m r => mapSet m r.terrace_id (toTerrace r)) []).map
    (fun p => p.2)

/-- The time-snapping arithmetic at the top of `filterTerraces`: minutes
below 15 snap to `:00`, minutes below 45 snap to `:30`, minutes from 45 snap
to `:00` of the next hour modulo 24. -/
def snapTime (hour minute : ℕ) : ℕ × ℕ :=
  let closestMinute : ℕ := if minute < 15 then 0 else if minute < 45 then 30 else 0
  let closestHour : ℕ := if 45 ≤ minute then (hour + 1) % 24 else hour
  (closestHour, closestMinute)

/-- The demo-terrace generator of the `GET` handler in
`src/app/api/terraces/route.ts`, with the `Math.random()` stream made
explicit: iteration `i` draws the longitude offset, latitude offset and
sunlit flag from consecutive stream positions. -/
def demoTerraces (rand : ℕ → ℚ) : List Terrace :=
  (List.range 20).map (fun i =>
    { id := "demo-" ++ toString i,
      lon := 2.3522 + (rand (3 * i) - 0.5) * 0.04,
      lat := 48.8566 + (rand (3 * i + 1) - 0.5) * 0.02,
      address := "Demo Terrace #" ++ toString (i + 1),
      isSunlit := decide ((0.4 : ℚ) < rand (3 * i + 2)) })

/-- The fallback branch of the `GET` handler: when date/time filtering
yields no terraces, respond with the 20 random demo terraces instead. -/
def terracesByDateTimeGET (filteredRecords : List TerraceRecord)
    (rand : ℕ → ℚ) : List Terrace :=
  if (filterTerraces filteredRecords).isEmpty then demoTerraces rand
  else filterTerraces filteredRecords

/-- Numeric value of a (non-empty) list of decimal digit characters. -/
def digitsVal (cs : List Char) : ℕ :=
  cs.foldl (fun acc c => 10 * acc + (c.toNat - Char.toNat (Char.ofNat 48))) 0

/-- JavaScript `parseInt(s, 10)` on a character list: skip leading
whitespace, consume an optional sign, then the longest run of decimal
digits; `NaN` (here `none`) when no digit follows. -/
def jsParseIntChars (cs0 : List Char) : Option ℤ :=
  let cs := cs0.dropWhile (fun c => c.isWhitespace)
  let signed : Bool × List Char :=
    match cs with
    | '-' :: rest => (true, rest)
    | '+' :: rest => (false, rest)
    | _ => (false, cs)
  let ds := signed.2.takeWhile (fun c => c.isDigit)
  if ds.isEmpty then none
  else some (if signed.1 then -(digitsVal ds : ℤ) else (digitsVal ds : ℤ))

/-- The time-slot key test of `getAvailableTimeSlots`:
`key.startsWith("t") && !isNaN(parseInt(key.substring(1), 10))`. -/
def isTimeSlotKey (key : String) : Bool :=
  match key.data with
  | 't' :: rest => (jsParseIntChars rest).isSome
  | _ => false

/-- Lexicographic comparison of character lists by code point, the order
JavaScript's default `Array.prototype.sort` uses on strings. -/
def charListLe : List Char → List Char → Bool
  | [], _ => true
  | _ :: _, [] => false
  | a :: as, b :: bs =>
    if a.toNat < b.toNat then true
    else if b.toNat < a.toNat then false
    else charListLe as bs

/-- String comparison used by the `.sort()` call of
`getAvailableTimeSlots`. -/
def stringLeJS (a b : String) : Bool := charListLe a.data b.data

/-- `getAvailableTimeSlots` of `csvParser.ts`: empty collection gives `[]`;
otherwise take the property keys of the FIRST feature, keep the time-slot
keys, and sort them. -/
def getAvailableTimeSlots (feats : List TerraceFeature) : List String :=
  match feats with
  | [] => []
  | f :: _ => ((propertyKeys f).filter isTimeSlotKey).mergeSort stringLeJS

/-- The record filter the nearby route passes to `parseCsv`: match on date
and time slot, and on sunlitness when `onlySunny` is set. -/
def nearbyRecordFilter (date time : String) (onlySunny : Bool)
    (r : TerraceRecord) : Bool :=
  if r.date != date || r.time_slot != time then false
  else if onlySunny && !r.is_sunlit then false
  else true

/-- The core of the nearby route's `GET`: keep the records within `radius`
of the search point under the distance function `dist`, then sort them by
that distance ascending (`.sort((a, b) => distA - distB)`).  `dist` stands
for `calculateDistance`, whose floating-point Haversine arithmetic is kept
abstract; every property proved below holds for all `dist`, in particular
for the Haversine distance. -/
def nearbySearch (dist : ℚ → ℚ → ℚ → ℚ → ℚ) (lat lon radius : ℚ)
    (records : List TerraceRecord) : List TerraceRecord :=
  (records.filter
    (fun t => decide (dist lat lon t.terrace_lat t.terrace_lon ≤ radius))).mergeSort
    (fun a b =>
      decide (dist lat lon a.terrace_lat a.terrace_lon ≤
        dist lat lon b.terrace_lat b.terrace_lon))

/-- The `GET` handler of `/api/terraces/nearby`: validate coordinates
(`NaN` and `0` are rejected) and the presence of `date` and `time`, filter
the records by date/time/sunlitness, then run the distance search. -/
def nearbyGET (dist : ℚ → ℚ → ℚ → ℚ → ℚ) (latP lonP : QueryParam)
    (radius : ℚ) (date time : Option String) (onlySunny : Bool)
    (records : List TerraceRecord) : Except ApiError (List TerraceRecord) :=
  match latP, lonP with
  | .value lat, .value lon =>
    if lat = 0 ∨ lon = 0 then .error .badRequest
    else
      match date, time with
      | some d, some t =>
          .ok (nearbySearch dist lat lon radius
            (records.filter (nearbyRecordFilter d t onlySunny)))
      | _, _ => .error .badRequest
  | _, _ => .error .badRequest

/-! ### Lemmas about the step search of the raytracer -/

theorem firstHitFrom_eq_some_iff (p : ℕ → Bool) (fuel start i : ℕ) :
    firstHitFrom p start fuel = some i ↔
      start ≤ i ∧ i < start + fuel ∧ p i = true ∧
        ∀ j, start ≤ j → j < i → p j = false := by
  induction fuel generalizing start with
  | zero =>
    simp only [firstHitFrom]
    constructor
    · intro h; cases h
    · rintro ⟨h1, h2, -, -⟩; omega
  | succ f ih =>
    simp only [firstHitFrom]
    by_cases hs : p start = true
    · simp only [hs, if_true]
      constructor
      · rintro ⟨rfl⟩
        exact ⟨le_refl _, by omega, hs, fun j hj hj' => absurd hj' (by omega)⟩
      · rintro ⟨h1, _, hp, hmin⟩
        rcases Nat.eq_or_lt_of_le h1 with rfl | hlt
        · rfl
        · exact absurd hs (by simp [hmin start (le_refl _) hlt])
    · rw [Bool.not_eq_true] at hs
      simp only [hs, Bool.false_eq_true, if_false, ih]
      constructor
      · rintro ⟨h1, h2, hp, hmin⟩
        refine ⟨by omega, by omega, hp, fun j hj hj' => ?_⟩
        rcases Nat.eq_or_lt_of_le hj with rfl | hlt
        · exact hs
        · exact hmin j hlt hj'
      · rintro ⟨h1, h2, hp, hmin⟩
        have hne : start ≠ i := by
          rintro rfl; rw [hp] at hs; cases hs
        exact ⟨by omega, by omega, hp, fun j hj hj' => hmin j (by omega) hj'⟩

theorem firstHitFrom_eq_none_iff (p : ℕ → Bool) (fuel start : ℕ) :
    firstHitFrom p start fuel = none ↔
      ∀ j, start ≤ j → j < start + fuel → p j = false := by
  induction fuel generalizing start with
  | zero =>
    simp only [firstHitFrom]
    exact ⟨fun _ j h1 h2 => absurd h2 (by omega), fun _ => trivial⟩
  | succ f ih =>
    simp only [firstHitFrom]
    by_cases hs : p start = true
    · simp only [hs, if_true]
      constructor
      · intro h; cases h
      · intro h; exact absurd (h start (le_refl _) (by omega)) (by simp [hs])
    · rw [Bool.not_eq_true] at hs
      simp only [hs, Bool.false_eq_true, if_false, ih]
      constructor
      · intro h j h1 h2
        rcases Nat.eq_or_lt_of_le h1 with rfl | hlt
        · exact hs
        · exact h j hlt (by omega)
      · intro h j h1 h2
        exact h j (by omega) (by omega)

theorem obstructsAt_eq_true_iff (dsm : ℕ → Option ℚ) (h0 tanAlt step : ℚ)
    (i : ℕ) :
    obstructsAt dsm h0 tanAlt step i = true ↔
      ∃ hh, dsm i = some hh ∧ rayHeight h0 tanAlt step i ≤ hh := by
  unfold obstructsAt
  cases h : dsm i with
  | none => simp
  | some hh => simp

theorem obstructsAt_eq_false_iff (dsm : ℕ → Option ℚ) (h0 tanAlt step : ℚ)
    (i : ℕ) :
    obstructsAt dsm h0 tanAlt step i = false ↔
      ∀ hh, dsm i = some hh → hh < rayHeight h0 tanAlt step i := by
  rw [← Bool.not_eq_true, obstructsAt_eq_true_iff]
  push_neg
  constructor
  · intro h hh hdsm
    exact (h hh hdsm)
  · intro h hh hdsm
    exact h hh hdsm

/-- C1.  Shadow raytracer correctness: with the sun above the horizon, the
classification is geometrically SHADED exactly when some step distance
`d = (i+1)·step` up to the maximum has a DSM sample at least the ray height
`resolved_height + d · tan(altitude)` (ties count as obstruction), and the
recorded obstruction (distance, height, ray height) belongs to the smallest
such `d`; otherwise the classification is geometrically SUNLIT. -/
theorem raytrace_correct (dsm : ℕ → Option ℚ) (h0 tanAlt step : ℚ) (n : ℕ)
    (halt : 0 < tanAlt) :
    (raytrace dsm h0 tanAlt step n = .sunlit ↔
      ∀ i < n, ∀ hh, dsm i = some hh → hh < rayHeight h0 tanAlt step i)
    ∧ (∀ d oh rh, raytrace dsm h0 tanAlt step n = .shaded d oh rh ↔
        ∃ i < n, d = ((i : ℚ) + 1) * step ∧ dsm i = some oh ∧
          rh = rayHeight h0 tanAlt step i ∧ rayHeight h0 tanAlt step i ≤ oh ∧
          ∀ j < i, ∀ hh, dsm j = some hh → hh < rayHeight h0 tanAlt step j) := by
  constructor
  · unfold raytrace
    cases hfh : firstHitFrom (obstructsAt dsm h0 tanAlt step) 0 n with
    | some i =>
      simp only
      rw [firstHitFrom_eq_some_iff] at hfh
      obtain ⟨-, hin, hp, -⟩ := hfh
      constructor
      · intro h; cases h
      · intro hall
        rw [obstructsAt_eq_true_iff] at hp
        obtain ⟨hh, hdsm, hle⟩ := hp
        exact absurd hle (not_le.mpr (hall i (by omega) hh hdsm))
    | none =>
      simp only
      rw [firstHitFrom_eq_none_iff] at hfh
      constructor
      · intro _ i hi hh hdsm
        have := hfh i (Nat.zero_le _) (by omega)
        rw [obstructsAt_eq_false_iff] at this
        exact this hh hdsm
      · intro _; trivial
  · intro d oh rh
    unfold raytrace
    cases hfh : firstHitFrom (obstructsAt dsm h0 tanAlt step) 0 n with
    | some i =>
      simp only
      rw [firstHitFrom_eq_some_iff] at hfh
      obtain ⟨-, hin, hp, hmin⟩ := hfh
      rw [obstructsAt_eq_true_iff] at hp
      obtain ⟨hh, hdsm, hle⟩ := hp
      constructor
      · intro heq
        injection heq with e1 e2 e3
        refine ⟨i, by omega, e1.symm, ?_, e3.symm, ?_, ?_⟩
        · rw [hdsm, ← e2]; simp [hdsm]
        · have : oh = hh := by rw [← e2, hdsm]; rfl
          rw [this]; exact hle
        · intro j hj hh' hdsm'
          have := hmin j (Nat.zero_le _) hj
          rw [obstructsAt_eq_false_iff] at this
          exact this hh' hdsm'
      · rintro ⟨i', hi'n, rfl, hdsm', rfl, hle', hmin'⟩
        have hii : i' = i := by
          by_contra hne
          rcases Nat.lt_or_ge i' i with hlt | hge
          · have := hmin i' (Nat.zero_le _) hlt
            rw [obstructsAt_eq_false_iff] at this
            exact absurd hle' (not_le.mpr (this oh hdsm'))
          · have hlt : i < i' := by omega
            exact absurd hle (not_le.mpr (hmin' i hlt hh hdsm))
        subst hii
        rw [hdsm'] at hdsm
        injection hdsm with e
        simp [hdsm', ← e]
    | none =>
      simp only
      rw [firstHitFrom_eq_none_iff] at hfh
      constructor
      · intro h; cases h
      · rintro ⟨i, hin, -, hdsm, -, hle, -⟩
        have := hfh i (Nat.zero_le _) (by omega)
        rw [obstructsAt_eq_false_iff] at this
        exact absurd hle (not_le.mpr (this oh hdsm))

/-- Concrete DSM for the spec's worked scenario: flat ground with a 10 m
building at the fifth step (step distance 5 m). -/
def buildingDsm : ℕ → Option ℚ :=
  fun i => if i = 4 then some 10 else some 0

/-- Witness for C1 at the spec's scenario: terrace height 0, tan(45°) = 1,
1 m steps, 300 m horizon, a 10 m building 5 m away. -/
theorem raytrace_correct_witness :
    (0 : ℚ) < 1 ∧
    ((raytrace buildingDsm 0 1 1 300 = .sunlit ↔
        ∀ i < 300, ∀ hh, buildingDsm i = some hh → hh < rayHeight 0 1 1 i)
      ∧ (∀ d oh rh, raytrace buildingDsm 0 1 1 300 = .shaded d oh rh ↔
          ∃ i : ℕ, i < 300 ∧ d = ((i : ℚ) + 1) * 1 ∧ buildingDsm i = some oh ∧
            rh = rayHeight 0 1 1 i ∧ rayHeight 0 1 1 i ≤ oh ∧
            ∀ j < i, ∀ hh, buildingDsm j = some hh → hh < rayHeight 0 1 1 j)) :=
  ⟨by norm_num, raytrace_correct buildingDsm 0 1 1 300 (by norm_num)⟩

/-- C2.  Night is always shaded: whenever the sun's altitude is ≤ 0, the
final classification is `false` and does not depend on the raytracer (the
thunk is never forced, so any two raytracers give the same answer),
regardless of DSM contents, cloud cover and threshold. -/
theorem classifySlot_night (rt rt' : Unit → RayResult)
    (altitude cloud threshold : ℚ) (h : altitude ≤ 0) :
    classifySlot rt altitude cloud threshold = false ∧
    classifySlot rt altitude cloud threshold =
      classifySlot rt' altitude cloud threshold := by
  unfold classifySlot
  rw [if_pos h, if_pos h]
  exact ⟨rfl, rfl⟩

/-- Witness for C2: altitude −1 (night), with a sunlit-reporting and a
shaded-reporting raytracer disagreeing. -/
theorem classifySlot_night_witness :
    (-1 : ℚ) ≤ 0 ∧
    (classifySlot (fun _ => .sunlit) (-1) 0 100 = false ∧
      classifySlot (fun _ => .sunlit) (-1) 0 100 =
        classifySlot (fun _ => .shaded 1 10 5) (-1) 0 100) :=
  ⟨by norm_num,
    classifySlot_night (fun _ => .sunlit) (fun _ => .shaded 1 10 5) (-1) 0 100
      (by norm_num)⟩

/-- C3.  The weather filter is a pure downgrade: the override procedure of
§4.4 equals `geometric AND (cloud ≤ threshold)`; a geometrically-shaded slot
stays shaded for every cloud-cover value; and a final `true` can only come
from a geometric `true` (clouds never flip shaded to sunlit). -/
theorem weatherFilter_pure_downgrade (g : Bool) (cloud threshold : ℚ) :
    weatherFilter g cloud threshold = (g && decide (cloud ≤ threshold)) ∧
    weatherFilter false cloud threshold = false ∧
    (weatherFilter g cloud threshold = true → g = true) := by
  unfold weatherFilter
  rcases le_or_lt cloud threshold with hc | hc
  · rw [if_neg (not_lt.mpr hc), if_neg (not_lt.mpr hc)]
    simp [hc]
  · rw [if_pos hc, if_pos hc]
    simp [not_le.mpr hc]

/-! ### Minimum of a sample list -/

theorem foldl_min_mem (a : ℚ) (t : List ℚ) : t.foldl min a ∈ a :: t := by
  induction t generalizing a with
  | nil => simp
  | cons b t ih =>
    simp only [List.foldl_cons, List.mem_cons]
    rcases List.mem_cons.mp (ih (min a b)) with h1 | h1
    · rcases min_choice a b with h2 | h2
      · exact Or.inl (h1.trans h2)
      · exact Or.inr (Or.inl (h1.trans h2))
    · exact Or.inr (Or.inr h1)

theorem foldl_min_le (a : ℚ) (t : List ℚ) :
    ∀ x ∈ a :: t, t.foldl min a ≤ x := by
  induction t generalizing a with
  | nil =>
    intro x hx
    simp only [List.mem_singleton] at hx
    simp [hx]
  | cons b t ih =>
    intro x hx
    simp only [List.foldl_cons]
    have hub : t.foldl min (min a b) ≤ min a b :=
      ih (min a b) (min a b) (List.mem_cons_self _ _)
    rcases List.mem_cons.mp hx with rfl | hx1
    · exact le_trans hub (min_le_left _ _)
    · rcases List.mem_cons.mp hx1 with rfl | hx2
      · exact le_trans hub (min_le_right _ _)
      · exact ih (min a b) x (List.mem_cons_of_mem _ hx2)

/-- C4.  Terrace height resolution: whenever the buffer region holds at
least one DSM sample, the resolver returns exactly the minimum of all DSM
samples within the buffer radius (a member of the sample list that is a
lower bound of it) — so in particular neither the mean nor the value at the
exact point unless those coincide with the minimum. -/
theorem resolveHeight_min (dsm : ℤ × ℤ → Option ℚ) (cx cy : ℤ) (r : ℕ)
    (hne : bufferSamples dsm cx cy r ≠ []) :
    ∃ m, resolveHeight dsm cx cy r = some m ∧
      m ∈ bufferSamples dsm cx cy r ∧
      ∀ x ∈ bufferSamples dsm cx cy r, m ≤ x := by
  unfold resolveHeight
  cases hs : bufferSamples dsm cx cy r with
  | nil => exact absurd hs hne
  | cons a t =>
    exact ⟨t.foldl min a, rfl, foldl_min_mem a t, foldl_min_le a t⟩

/-- Witness for C4: a tilted DSM around the origin with buffer radius 1. -/
theorem resolveHeight_min_witness :
    (bufferSamples (fun c => some ((c.1 : ℚ))) 0 0 1 ≠ []) ∧
    (∃ m, resolveHeight (fun c => some ((c.1 : ℚ))) 0 0 1 = some m ∧
      m ∈ bufferSamples (fun c => some ((c.1 : ℚ))) 0 0 1 ∧
      ∀ x ∈ bufferSamples (fun c => some ((c.1 : ℚ))) 0 0 1, m ≤ x) :=
  ⟨by decide, resolveHeight_min (fun c => some ((c.1 : ℚ))) 0 0 1 (by decide)⟩

/-- C5.  Bounding-box filtering of the serving layer: with all four query
parameters present and numeric, the GET handler returns exactly the features
whose coordinates satisfy `swLng ≤ lon ≤ neLng` and `swLat ≤ lat ≤ neLat`
(all inclusive), mapped to responses in the original feature order; with the
bounds absent every feature is returned. -/
theorem terracesGET_bbox (feats : List TerraceFeature) (b : Bounds) :
    (terracesGET feats (.value b.swLng) (.value b.swLat) (.value b.neLng)
        (.value b.neLat) =
      .ok ((feats.filter (fun f =>
        decide (b.swLng ≤ f.lon ∧ f.lon ≤ b.neLng ∧
          b.swLat ≤ f.lat ∧ f.lat ≤ b.neLat))).map toResponse))
    ∧ (∀ r out,
        terracesGET feats (.value b.swLng) (.value b.swLat) (.value b.neLng)
            (.value b.neLat) = .ok out →
          (r ∈ out ↔ ∃ f ∈ feats,
            (b.swLng ≤ f.lon ∧ f.lon ≤ b.neLng ∧
              b.swLat ≤ f.lat ∧ f.lat ≤ b.neLat) ∧ r = toResponse f))
    ∧ terracesGET feats .missing .missing .missing .missing =
        .ok (feats.map toResponse) := by
  have hfilter : feats.filter (inBounds b) = feats.filter (fun f =>
      decide (b.swLng ≤ f.lon ∧ f.lon ≤ b.neLng ∧
        b.swLat ≤ f.lat ∧ f.lat ≤ b.neLat)) := by
    apply List.filter_congr
    intro f _
    by_cases h1 : b.swLng ≤ f.lon <;> by_cases h2 : f.lon ≤ b.neLng <;>
      by_cases h3 : b.swLat ≤ f.lat <;> by_cases h4 : f.lat ≤ b.neLat <;>
      simp [inBounds, h1, h2, h3, h4]
  have h1 : terracesGET feats (.value b.swLng) (.value b.swLat)
      (.value b.neLng) (.value b.neLat) =
      .ok ((feats.filter (inBounds b)).map toResponse) := rfl
  refine ⟨by rw [h1, hfilter], ?_, rfl⟩
  intro r out hout
  rw [h1, hfilter] at hout
  injection hout with hout
  subst hout
  rw [List.mem_map]
  constructor
  · rintro ⟨f, hf, rfl⟩
    rw [List.mem_filter] at hf
    exact ⟨f, hf.1, of_decide_eq_true hf.2, rfl⟩
  · rintro ⟨f, hf, hprop, rfl⟩
    exact ⟨f, List.mem_filter.mpr ⟨hf, decide_eq_true hprop⟩, rfl⟩

/-! ### Association-list invariants of the route's Map -/

/-- Invariant of the `Map` built by `filterTerraces`: keys are distinct and
every stored terrace carries its key as its id. -/
def goodMap (m : List (String × Terrace)) : Prop :=
  (m.map (fun p => p.1)).Nodup ∧ ∀ p ∈ m, p.1 = p.2.id

theorem goodMap_mapSet (m : List (String × Terrace)) (k : String) (v : Terrace)
    (hm : goodMap m) (hv : v.id = k) : goodMap (mapSet m k v) := by
  obtain ⟨hnd, hid⟩ := hm
  unfold mapSet
  by_cases hmem : m.any (fun p => p.1 == k) = true
  · rw [if_pos hmem]
    constructor
    · have : (m.map (fun p => if p.1 == k then (k, v) else p)).map (fun p => p.1) =
          m.map (fun p => p.1) := by
        rw [List.map_map]
        apply List.map_congr_left
        intro p _
        by_cases hpk : p.1 = k
        · simp [hpk]
        · simp [hpk]
      rw [this]
      exact hnd
    · intro p hp
      rw [List.mem_map] at hp
      obtain ⟨q, hq, hqp⟩ := hp
      by_cases hqk : q.1 = k
      · rw [if_pos (by simp [hqk])] at hqp
        rw [← hqp, hv]
      · rw [if_neg (by simp [hqk])] at hqp
        rw [← hqp]
        exact hid q hq
  · rw [if_neg hmem]
    constructor
    · rw [List.map_append, List.map_singleton]
      rw [List.nodup_append]
      refine ⟨hnd, List.nodup_singleton _, ?_⟩
      intro a ha hb
      rw [List.mem_singleton] at hb
      rw [List.mem_map] at ha
      obtain ⟨q, hq, hqa⟩ := ha
      rw [List.any_eq_true] at hmem
      push_neg at hmem
      have hq2 : ¬ (q.1 = k) := by simpa using hmem q hq
      exact hq2 (hqa.trans hb)
    · intro p hp
      rw [List.mem_append, List.mem_singleton] at hp
      rcases hp with hp | rfl
      · exact hid p hp
      · exact hv.symm

theorem goodMap_foldl (records : List TerraceRecord)
    (m : List (String × Terrace)) (hm : goodMap m) :
    goodMap (records.foldl
      (fun m r => mapSet m r.terrace_id (toTerrace r)) m) := by
  induction records generalizing m with
  | nil => exact hm
  | cons r rs ih =>
    exact ih _ (goodMap_mapSet m r.terrace_id (toTerrace r) hm rfl)

/-- Ids produced by the aggregator. -/
def aggregateIds (ts : List TerraceIn) : List String :=
  (aggregate ts).1.map (fun p => p.1)

theorem aggregateIds_sublist (ts : List TerraceIn) :
    (aggregateIds ts).Sublist (ts.map (fun t => t.id)) := by
  induction ts with
  | nil => exact List.nil_sublist _
  | cons t rest ih =>
    unfold aggregateIds aggregate at ih ⊢
    cases h : t.height with
    | none => simpa [h] using ih.cons t.id
    | some hh => simpa [h] using ih.cons₂ t.id

theorem aggregate_counts (ts : List TerraceIn) :
    (aggregate ts).1.length + (aggregate ts).2 = ts.length := by
  induction ts with
  | nil => rfl
  | cons t rest ih =>
    unfold aggregate at *
    cases h : t.height with
    | none => simp [h, Option.isNone] at ih ⊢; omega
    | some hh => simp [h, Option.isNone] at ih ⊢; omega

/-- C6.  Output uniqueness: with distinct registry ids, a terrace with a
resolved height contributes exactly one output record, a terrace that failed
height resolution contributes none (it is instead counted: records plus the
warning count add up to the whole registry, nothing is silently dropped);
and independently, the serving layer's `filterTerraces` returns at most one
entry per terrace id for any input record list. -/
theorem aggregate_unique (ts : List TerraceIn)
    (hnodup : (ts.map (fun t => t.id)).Nodup) :
    (∀ t ∈ ts, t.height.isSome →
      ((aggregate ts).1.map (fun p => p.1)).count t.id = 1)
    ∧ (∀ t ∈ ts, t.height = none →
        t.id ∉ (aggregate ts).1.map (fun p => p.1))
    ∧ (aggregate ts).1.length + (aggregate ts).2 = ts.length
    ∧ ∀ records : List TerraceRecord,
        ((filterTerraces records).map (fun t => t.id)).Nodup := by
  have hsub := aggregateIds_sublist ts
  have hnd : (aggregateIds ts).Nodup := hsub.nodup hnodup
  refine ⟨?_, ?_, aggregate_counts ts, ?_⟩
  · intro t ht hsome
    apply List.count_eq_one_of_mem hnd
    show t.id ∈ aggregateIds ts
    unfold aggregateIds aggregate
    rw [List.map_filterMap, List.mem_filterMap]
    refine ⟨t, ht, ?_⟩
    cases h : t.height with
    | none => rw [h] at hsome; cases hsome
    | some hh => simp [h]
  · intro t ht hnone hmem
    have hmem' : t.id ∈ aggregateIds ts := hmem
    unfold aggregateIds aggregate at hmem'
    rw [List.map_filterMap, List.mem_filterMap] at hmem'
    obtain ⟨u, hu, huid⟩ := hmem'
    cases h : u.height with
    | none => rw [h] at huid; cases huid
    | some hh =>
      rw [h, Option.map_some'] at huid
      injection huid with huid'
      have hinj := List.inj_on_of_nodup_map hnodup
      have : u = t := hinj hu ht huid'
      subst this
      rw [hnone] at h
      cases h
  · intro records
    have hgm : goodMap (records.foldl
        (fun m r => mapSet m r.terrace_id (toTerrace r)) []) :=
      goodMap_foldl records [] ⟨List.nodup_nil, fun p hp => absurd hp (List.not_mem_nil p)⟩
    obtain ⟨hnd2, hid2⟩ := hgm
    unfold filterTerraces
    rw [List.map_map]
    have : (records.foldl (fun m r => mapSet m r.terrace_id (toTerrace r)) []).map
        ((fun t => t.id) ∘ (fun p => p.2)) =
        (records.foldl (fun m r => mapSet m r.terrace_id (toTerrace r)) []).map
        (fun p => p.1) := by
      apply List.map_congr_left
      intro p hp
      exact (hid2 p hp).symm
    rw [this]
    exact hnd2

/-- Witness for C6: a three-terrace registry where one height resolution
failed. -/
theorem aggregate_unique_witness :
    (([⟨"a", some 3⟩, ⟨"b", none⟩, ⟨"c", some 7⟩] :
        List TerraceIn).map (fun t => t.id)).Nodup ∧
    ((∀ t ∈ ([⟨"a", some 3⟩, ⟨"b", none⟩, ⟨"c", some 7⟩] : List TerraceIn),
        t.height.isSome →
        ((aggregate [⟨"a", some 3⟩, ⟨"b", none⟩, ⟨"c", some 7⟩]).1.map
          (fun p => p.1)).count t.id = 1)
      ∧ (∀ t ∈ ([⟨"a", some 3⟩, ⟨"b", none⟩, ⟨"c", some 7⟩] : List TerraceIn),
          t.height = none →
          t.id ∉ (aggregate [⟨"a", some 3⟩, ⟨"b", none⟩, ⟨"c", some 7⟩]).1.map
            (fun p => p.1))
      ∧ (aggregate [⟨"a", some 3⟩, ⟨"b", none⟩, ⟨"c", some 7⟩]).1.length +
          (aggregate [⟨"a", some 3⟩, ⟨"b", none⟩, ⟨"c", some 7⟩]).2 =
          ([⟨"a", some 3⟩, ⟨"b", none⟩, ⟨"c", some 7⟩] : List TerraceIn).length
      ∧ ∀ records : List TerraceRecord,
          ((filterTerraces records).map (fun t => t.id)).Nodup) :=
  ⟨by decide, aggregate_unique [⟨"a", some 3⟩, ⟨"b", none⟩, ⟨"c", some 7⟩]
    (by decide)⟩

/-! ### Order facts for the JavaScript string sort -/

theorem charListLe_trans : ∀ a b c : List Char,
    charListLe a b = true → charListLe b c = true → charListLe a c = true := by
  intro a
  induction a with
  | nil => intro b c _ _; rfl
  | cons x xs ih =>
    intro b c hab hbc
    cases b with
    | nil => simp [charListLe] at hab
    | cons y ys =>
      cases c with
      | nil => simp [charListLe] at hbc
      | cons z zs =>
        unfold charListLe at hab hbc ⊢
        by_cases h1 : x.toNat < y.toNat
        · by_cases h2 : y.toNat < z.toNat
          · rw [if_pos (by omega)]
          · by_cases h3 : z.toNat < y.toNat
            · rw [if_neg h2, if_pos h3] at hbc; cases hbc
            · rw [if_pos (by omega)]
        · by_cases h3 : y.toNat < x.toNat
          · rw [if_neg h1, if_pos h3] at hab; cases hab
          · by_cases h2 : y.toNat < z.toNat
            · rw [if_pos (by omega)]
            · by_cases h4 : z.toNat < y.toNat
              · rw [if_neg h2, if_pos h4] at hbc; cases hbc
              · rw [if_neg h1, if_neg h3] at hab
                rw [if_neg h2, if_neg h4] at hbc
                rw [if_neg (by omega), if_neg (by omega)]
                exact ih ys zs hab hbc

theorem charListLe_total : ∀ a b : List Char,
    (charListLe a b || charListLe b a) = true := by
  intro a
  induction a with
  | nil => intro b; rfl
  | cons x xs ih =>
    intro b
    cases b with
    | nil => rfl
    | cons y ys =>
      unfold charListLe
      by_cases h1 : x.toNat < y.toNat
      · simp [h1]
      · by_cases h2 : y.toNat < x.toNat
        · simp [h1, h2]
        · simp only [if_neg h1, if_neg h2]
          exact ih ys

theorem stringLeJS_trans (a b c : String) (hab : stringLeJS a b = true)
    (hbc : stringLeJS b c = true) : stringLeJS a c = true :=
  charListLe_trans a.data b.data c.data hab hbc

theorem stringLeJS_total (a b : String) :
    (stringLeJS a b || stringLeJS b a) = true :=
  charListLe_total a.data b.data

/-- C7.  Time-slot keys of the interchange format: for the empty collection
`getAvailableTimeSlots` returns the empty list; for a non-empty collection
it returns exactly the property keys of the FIRST feature that start with
`t` followed by a `parseInt`-parseable integer (a permutation of that
filtered key list), arranged in ascending lexicographic order. -/
theorem getAvailableTimeSlots_spec :
    getAvailableTimeSlots [] = []
    ∧ ∀ (f : TerraceFeature) (rest : List TerraceFeature),
        (getAvailableTimeSlots (f :: rest)).Perm
          ((propertyKeys f).filter isTimeSlotKey)
        ∧ List.Pairwise (fun a b => stringLeJS a b = true)
            (getAvailableTimeSlots (f :: rest)) := by
  refine ⟨rfl, fun f rest => ⟨List.mergeSort_perm _ _, ?_⟩⟩
  exact List.sorted_mergeSort stringLeJS_trans stringLeJS_total _

/-- Circular distance in minutes on the 24-hour clock, for wall-clock
instants given as minutes from midnight (both below 1440). -/
def circularDiff (a b : ℕ) : ℕ :=
  min ((1440 + a - b) % 1440) ((1440 + b - a) % 1440)

/-- C8.  Nearest-slot snapping: for any requested wall-clock time, minutes
0–14 snap to `:00` of the same hour, 15–44 to `:30` of the same hour, and
45–59 to `:00` of the next hour modulo 24; the snapped slot is never more
than 15 minutes from the requested time (circularly, so 23:45 → 00:00
counts as 15 minutes). -/
theorem snapTime_spec (hour minute : ℕ) (hh : hour < 24) (hm : minute < 60) :
    snapTime hour minute =
      (if minute < 15 then (hour, 0)
       else if minute < 45 then (hour, 30)
       else ((hour + 1) % 24, 0))
    ∧ circularDiff (60 * hour + minute)
        (60 * (snapTime hour minute).1 + (snapTime hour minute).2) ≤ 15 := by
  have e : snapTime hour minute =
      (if minute < 15 then (hour, 0)
       else if minute < 45 then (hour, 30)
       else ((hour + 1) % 24, 0)) := by
    simp only [snapTime]
    split_ifs with h1 h2 <;> simp_all <;> omega
  refine ⟨e, ?_⟩
  rw [e]
  unfold circularDiff
  split_ifs with h1 h2 <;> simp only <;> omega

/-- Witness for C8 at the wrap-around corner 23:50 → 00:00. -/
theorem snapTime_spec_witness :
    snapTime 23 50 =
      (if (50 : ℕ) < 15 then ((23 : ℕ), (0 : ℕ))
       else if (50 : ℕ) < 45 then (23, 30)
       else ((23 + 1) % 24, 0))
    ∧ circularDiff (60 * 23 + 50)
        (60 * (snapTime 23 50).1 + (snapTime 23 50).2) ≤ 15 :=
  snapTime_spec 23 50 (by decide) (by decide)

/-- C9.  Empty-result fallback of `GET /api/terraces`: the response is never
an empty array; when date/time filtering yields zero terraces the handler
answers with exactly 20 synthetic terraces with ids `demo-0` … `demo-19`,
coordinates within ±0.02° longitude and ±0.01° latitude of
(2.3522, 48.8566); and the fallback output depends on the random stream, so
it is not deterministic across identical requests. -/
theorem terracesGET_demo_fallback (filteredRecords : List TerraceRecord)
    (rand : ℕ → ℚ) (hr : ∀ i, 0 ≤ rand i ∧ rand i < 1) :
    terracesByDateTimeGET filteredRecords rand ≠ []
    ∧ (filterTerraces filteredRecords = [] →
        (terracesByDateTimeGET filteredRecords rand).map (fun t => t.id) =
          (List.range 20).map (fun i => "demo-" ++ toString i)
        ∧ ∀ t ∈ terracesByDateTimeGET filteredRecords rand,
            |t.lon - 2.3522| ≤ 0.02 ∧ |t.lat - 48.8566| ≤ 0.01)
    ∧ (filterTerraces filteredRecords = [] →
        ∃ r1 r2 : ℕ → ℚ, (∀ i, 0 ≤ r1 i ∧ r1 i < 1) ∧
          (∀ i, 0 ≤ r2 i ∧ r2 i < 1) ∧
          terracesByDateTimeGET filteredRecords r1 ≠
            terracesByDateTimeGET filteredRecords r2) := by
  refine ⟨?_, ?_, ?_⟩
  · intro hcon
    unfold terracesByDateTimeGET at hcon
    by_cases h : (filterTerraces filteredRecords).isEmpty = true
    · rw [if_pos h] at hcon
      have hlen : (demoTerraces rand).length = 20 := by simp [demoTerraces]
      rw [hcon] at hlen
      simp at hlen
    · rw [if_neg h] at hcon
      rw [hcon] at h
      simp at h
  · intro hE
    have hdemo : terracesByDateTimeGET filteredRecords rand = demoTerraces rand := by
      unfold terracesByDateTimeGET
      rw [hE]
      rfl
    rw [hdemo]
    constructor
    · unfold demoTerraces
      rw [List.map_map]
      rfl
    · intro t ht
      unfold demoTerraces at ht
      rw [List.mem_map] at ht
      obtain ⟨i, -, rfl⟩ := ht
      obtain ⟨ha1, ha2⟩ := hr (3 * i)
      obtain ⟨hb1, hb2⟩ := hr (3 * i + 1)
      constructor
      · show |2.3522 + (rand (3 * i) - 0.5) * 0.04 - 2.3522| ≤ 0.02
        have he : 2.3522 + (rand (3 * i) - 0.5) * 0.04 - 2.3522 =
            (rand (3 * i) - 0.5) * 0.04 := by ring
        rw [he, abs_le]
        constructor <;> nlinarith
      · show |48.8566 + (rand (3 * i + 1) - 0.5) * 0.02 - 48.8566| ≤ 0.01
        have he : 48.8566 + (rand (3 * i + 1) - 0.5) * 0.02 - 48.8566 =
            (rand (3 * i + 1) - 0.5) * 0.02 := by ring
        rw [he, abs_le]
        constructor <;> nlinarith
  · intro hE
    refine ⟨fun _ => 0, fun _ => 1/2, fun i => by norm_num,
      fun i => by norm_num, ?_⟩
    have h1 : terracesByDateTimeGET filteredRecords (fun _ => 0) =
        demoTerraces (fun _ => 0) := by
      unfold terracesByDateTimeGET
      rw [hE]
      rfl
    have h2 : terracesByDateTimeGET filteredRecords (fun _ => 1/2) =
        demoTerraces (fun _ => 1/2) := by
      unfold terracesByDateTimeGET
      rw [hE]
      rfl
    rw [h1, h2]
    intro heq
    have hmap := congrArg (List.map (fun t => t.isSunlit)) heq
    have hmap1 : (demoTerraces (fun _ => 0)).map (fun t => t.isSunlit) =
        List.replicate 20 false := by
      simp [demoTerraces, List.map_map, Function.comp]
      norm_num
      rfl
    have hmap2 : (demoTerraces (fun _ => 1/2)).map (fun t => t.isSunlit) =
        List.replicate 20 true := by
      simp [demoTerraces, List.map_map, Function.comp]
      norm_num
      rfl
    rw [hmap1, hmap2] at hmap
    exact absurd hmap (by decide)

/-- Witness for C9 with the all-zeros random stream and no matching
records. -/
theorem terracesGET_demo_fallback_witness :
    (∀ i : ℕ, (0 : ℚ) ≤ (fun _ : ℕ => (0 : ℚ)) i ∧ (fun _ : ℕ => (0 : ℚ)) i < 1)
    ∧ terracesByDateTimeGET [] (fun _ => 0) ≠ [] :=
  ⟨fun _ => by norm_num,
    (terracesGET_demo_fallback [] (fun _ => 0) (fun _ => by norm_num)).1⟩

/-- C10.  Nearby-search postcondition: on the success path of
`GET /api/terraces/nearby`, every returned terrace lies within `radius` of
the search point under the route's distance function, and the returned list
is ordered by nondecreasing distance from the search point.  The distance
function is universally quantified, so the statement holds in particular for
the Haversine `calculateDistance`. -/
theorem nearbyGET_postcondition (dist : ℚ → ℚ → ℚ → ℚ → ℚ)
    (lat lon radius : ℚ) (date time : String) (onlySunny : Bool)
    (records out : List TerraceRecord)
    (h : nearbyGET dist (.value lat) (.value lon) radius (some date)
      (some time) onlySunny records = .ok out) :
    (∀ r ∈ out, dist lat lon r.terrace_lat r.terrace_lon ≤ radius)
    ∧ List.Pairwise (fun a b =>
        dist lat lon a.terrace_lat a.terrace_lon ≤
          dist lat lon b.terrace_lat b.terrace_lon) out := by
  unfold nearbyGET at h
  dsimp only at h
  split_ifs at h with h0
  injection h with h
  subst h
  constructor
  · intro r hr
    unfold nearbySearch at hr
    rw [List.mem_mergeSort, List.mem_filter] at hr
    exact of_decide_eq_true hr.2
  · have htrans : ∀ a b c : TerraceRecord,
        decide (dist lat lon a.terrace_lat a.terrace_lon ≤
          dist lat lon b.terrace_lat b.terrace_lon) = true →
        decide (dist lat lon b.terrace_lat b.terrace_lon ≤
          dist lat lon c.terrace_lat c.terrace_lon) = true →
        decide (dist lat lon a.terrace_lat a.terrace_lon ≤
          dist lat lon c.terrace_lat c.terrace_lon) = true := by
      intro a b c hab hbc
      exact decide_eq_true
        (le_trans (of_decide_eq_true hab) (of_decide_eq_true hbc))
    have htotal : ∀ a b : TerraceRecord,
        (decide (dist lat lon a.terrace_lat a.terrace_lon ≤
          dist lat lon b.terrace_lat b.terrace_lon) ||
        decide (dist lat lon b.terrace_lat b.terrace_lon ≤
          dist lat lon a.terrace_lat a.terrace_lon)) = true := by
      intro a b
      rcases le_total (dist lat lon a.terrace_lat a.terrace_lon)
        (dist lat lon b.terrace_lat b.terrace_lon) with hle | hle
      · simp [decide_eq_true hle]
      · simp [decide_eq_true hle]
    have hs := List.sorted_mergeSort htrans htotal
      ((records.filter (nearbyRecordFilter date time onlySunny)).filter
        (fun t => decide (dist lat lon t.terrace_lat t.terrace_lon ≤ radius)))
    exact hs.imp (fun hab => of_decide_eq_true hab)

/-- Witness for C10 on a trivially valid request with no records. -/
theorem nearbyGET_postcondition_witness :
    (nearbyGET (fun _ _ _ _ => 0) (.value 1) (.value 1) 1 (some "2024-05-01")
      (some "12:00") false [] = .ok ([] : List TerraceRecord))
    ∧ ((∀ r ∈ ([] : List TerraceRecord),
          (fun _ _ _ _ => (0 : ℚ)) 1 1 r.terrace_lat r.terrace_lon ≤ 1)
      ∧ List.Pairwise (fun a b =>
          (fun _ _ _ _ => (0 : ℚ)) 1 1 a.terrace_lat a.terrace_lon ≤
            (fun _ _ _ _ => (0 : ℚ)) 1 1 b.terrace_lat b.terrace_lon)
          ([] : List TerraceRecord)) :=
  ⟨by unfold nearbyGET nearbySearch; norm_num [List.mergeSort_nil],
    nearbyGET_postcondition (fun _ _ _ _ => 0) 1 1 1 "2024-05-01" "12:00"
      false [] []
      (by unfold nearbyGET nearbySearch; norm_num [List.mergeSort_nil])⟩

end AperoSoleil
